import Mathlib

/-!
Verification of the depaginator concurrent pagination engine (Go).

The engine serializes all state mutations through a single daemon
goroutine consuming an `updates` channel.  We shallowly embed the
state record (`Depaginator` struct fields touched by updates), the
update variants from `options.go`, and the daemon's sequential
application of updates.  Machine `uint` words are modelled as `Nat`
(all bit operations stay below `2 ^ 64`, so no wraparound occurs);
Go `int` metadata fields are modelled as `Int`.
-/

namespace Depag

/-- Machine word size (`bits.UintSize` on a 64-bit platform). -/
def uintSize : Nat := 64

/-- `pageMap` from `page_map.go`: a growable bitmap of requested pages. -/
structure PageMap where
  bits : List Nat
  deriving Repr, DecidableEq

/-- `pageMap.CheckAndSet` from `page_map.go`: returns whether the bit for
`page` was already set, and sets it, growing the backing slice on demand
(`bits.Div(0, uint(page), bits.UintSize)` is division with remainder). -/
def PageMap.CheckAndSet (pm : PageMap) (page : Nat) : Bool × PageMap :=
  let idx := page / uintSize
  let bit := page % uintSize
  if _h : idx ≥ pm.bits.length then
    let newMap := pm.bits ++ List.replicate (idx + 1 - pm.bits.length) 0
    (false, ⟨newMap.set idx ((newMap.getD idx 0) ||| (1 <<< bit))⟩)
  else
    (decide ((pm.bits.getD idx 0) &&& (1 <<< bit) ≠ 0),
     ⟨pm.bits.set idx ((pm.bits.getD idx 0) ||| (1 <<< bit))⟩)

/-- The set of page indices whose bit is set in the bitmap. -/
def PageMap.marked (pm : PageMap) (p : Nat) : Bool :=
  decide ((pm.bits.getD (p / uintSize) 0) &&& (1 <<< (p % uintSize)) ≠ 0)

section PageMapLemmas

lemma shiftLeft_one_eq (b : Nat) : 1 <<< b = 2 ^ b := by
  simp [Nat.shiftLeft_eq]

lemma and_two_pow_ne_zero (a b : Nat) : (a &&& 2 ^ b ≠ 0) ↔ a.testBit b := by
  rw [Nat.and_two_pow]
  rcases h : a.testBit b with _ | _ <;> simp [h]

lemma marked_iff_testBit (pm : PageMap) (p : Nat) :
    pm.marked p = (pm.bits.getD (p / uintSize) 0).testBit (p % uintSize) := by
  unfold PageMap.marked
  rw [shiftLeft_one_eq, Nat.and_two_pow]
  rcases h : (pm.bits.getD (p / uintSize) 0).testBit (p % uintSize) with _ | _ <;> simp [h]

lemma getD_replicate_zero (k j : Nat) : (List.replicate k 0).getD j 0 = 0 := by
  induction k generalizing j with
  | zero => simp
  | succ n ih =>
    cases j with
    | zero => simp [List.replicate]
    | succ j => simp [List.replicate]

lemma getD_append_replicate_zero (l : List Nat) (k j : Nat) :
    (l ++ List.replicate k 0).getD j 0 = l.getD j 0 := by
  induction l generalizing j with
  | nil => simp
  | cons a l ih =>
    cases j with
    | zero => simp
    | succ j => simpa using ih j

lemma getD_eq_zero_of_le (l : List Nat) (j : Nat) (h : l.length ≤ j) : l.getD j 0 = 0 := by
  induction l generalizing j with
  | nil => simp
  | cons a l ih =>
    cases j with
    | zero => simp at h
    | succ j =>
      simp only [List.length_cons] at h
      simpa using ih j (by omega)

lemma getD_set_self (l : List Nat) (i x : Nat) (h : i < l.length) :
    (l.set i x).getD i 0 = x := by
  induction l generalizing i with
  | nil => simp at h
  | cons a l ih =>
    cases i with
    | zero => simp
    | succ i =>
      simp only [List.length_cons] at h
      simpa [List.set] using ih i (by omega)

lemma getD_set_ne (l : List Nat) (i j x : Nat) (h : i ≠ j) :
    (l.set i x).getD j 0 = l.getD j 0 := by
  induction l generalizing i j with
  | nil => simp
  | cons a l ih =>
    cases i with
    | zero =>
      cases j with
      | zero => exact absurd rfl h
      | succ j => simp
    | succ i =>
      cases j with
      | zero => simp
      | succ j => simpa [List.set] using ih i j (by omega)

lemma eq_iff_div_mod (p q : Nat) :
    q = p ↔ (q / uintSize = p / uintSize ∧ q % uintSize = p % uintSize) := by
  unfold uintSize
  omega

/-- `CheckAndSet` returns exactly whether the page's bit was already set. -/
lemma CheckAndSet_fst (pm : PageMap) (p : Nat) :
    (pm.CheckAndSet p).1 = pm.marked p := by
  unfold PageMap.CheckAndSet PageMap.marked
  by_cases h : p / uintSize ≥ pm.bits.length
  · simp only [h, dite_true, dif_pos]
    rw [getD_eq_zero_of_le _ _ h]
    simp
  · simp [h]

lemma mod_eq_iff_of_div_eq {p q : Nat} (h : q / uintSize = p / uintSize) :
    (p % uintSize = q % uintSize) ↔ q = p := by
  unfold uintSize at *
  omega

/-- Word-level effect of `CheckAndSet`: the word holding `p`'s bit gains
that bit; every other word is unchanged (growth pads with zero words). -/
lemma CheckAndSet_bits_getD (pm : PageMap) (p j : Nat) :
    ((pm.CheckAndSet p).2).bits.getD j 0 =
      if j = p / uintSize then (pm.bits.getD j 0) ||| (1 <<< (p % uintSize))
      else pm.bits.getD j 0 := by
  unfold PageMap.CheckAndSet
  by_cases h : p / uintSize ≥ pm.bits.length
  · simp only [h, dite_true, dif_pos]
    by_cases hj : j = p / uintSize
    · subst hj
      rw [if_pos rfl]
      have hlen : p / uintSize <
          (pm.bits ++ List.replicate (p / uintSize + 1 - pm.bits.length) 0).length := by
        rw [List.length_append, List.length_replicate]
        omega
      rw [getD_set_self _ _ _ hlen, getD_append_replicate_zero]
    · rw [if_neg hj, getD_set_ne _ _ _ _ (fun he => hj he.symm),
        getD_append_replicate_zero]
  · simp only [h, dite_false, dif_neg h]
    by_cases hj : j = p / uintSize
    · subst hj
      rw [if_pos rfl, getD_set_self _ _ _ (by omega)]
    · rw [if_neg hj, getD_set_ne _ _ _ _ (fun he => hj he.symm)]

/-- After `CheckAndSet p`, exactly the bit for `p` has been added. -/
lemma CheckAndSet_marked (pm : PageMap) (p q : Nat) :
    ((pm.CheckAndSet p).2).marked q = (decide (q = p) || pm.marked q) := by
  rw [marked_iff_testBit, marked_iff_testBit, CheckAndSet_bits_getD]
  by_cases hij : q / uintSize = p / uintSize
  · rw [if_pos hij, shiftLeft_one_eq, Nat.testBit_lor, Nat.testBit_two_pow]
    by_cases hq : q = p
    · subst hq
      simp [Bool.or_comm]
    · rw [decide_eq_false (fun he => hq ((mod_eq_iff_of_div_eq hij).mp he)),
        decide_eq_false hq]
      simp
  · rw [if_neg hij]
    have hq : ¬(q = p) := fun hqp => hij ((eq_iff_div_mod p q).mp hqp).1
    simp [hq]

end PageMapLemmas

/-- `PageRequest` from `depaginator.go`.  The opaque `Request any`
payload is modelled as a `Nat` (it is passed through unexamined). -/
structure PageRequest where
  PageIndex : Nat
  Request : Nat
  deriving Repr, DecidableEq

/-- Go errors, as far as the engine examines them: `context.Canceled`,
`context.DeadlineExceeded`, any other error, and wrapping (`%w`).
`errors.Is` compares against the target and follows the unwrap chain. -/
inductive GoError where
  | canceled
  | deadlineExceeded
  | errorString (msg : String)
  | wrapped (inner : GoError)
  deriving Repr, DecidableEq

/-- `errors.Is(e, target)`: `e == target` or unwrap and repeat. -/
def GoError.is : GoError → GoError → Bool
  | .wrapped inner, t => (GoError.wrapped inner == t) || inner.is t
  | e, t => e == t

/-- `PageError` from `errors.go`: the failing request with its error. -/
structure PageError where
  req : PageRequest
  Err : GoError
  deriving Repr, DecidableEq

/-- The mutable fields of the `Depaginator[T]` struct that updates touch,
plus observation logs for effects the updates trigger: `canceled` records
the cancel functions invoked (by token), `fetched` records the page
requests for which a `getPage` fetch task was launched, and `handled`
records the `(index, item)` pairs passed to `Handler.Handle`.  The Go
`cancelers` map is modelled as an association list with unique keys. -/
structure DepagState (T : Type) where
  errors : List PageError
  totalItems : Int
  totalPages : Int
  perPage : Int
  cancelers : List (Nat × Nat)
  canceled : List Nat
  pages : PageMap
  fetched : List PageRequest
  handled : List (Int × T)
  wg : Int
  deriving Repr, DecidableEq

/-- Go map assignment `m[k] = v`: replace the binding if present,
otherwise add it. -/
def mapSet (m : List (Nat × Nat)) (k v : Nat) : List (Nat × Nat) :=
  if m.any (fun e => e.1 == k) then m.map (fun e => if e.1 == k then (k, v) else e)
  else m ++ [(k, v)]

/-- Go map `delete(m, k)`. -/
def mapDelete (m : List (Nat × Nat)) (k : Nat) : List (Nat × Nat) :=
  m.filter (fun e => e.1 != k)

/-- The `update[T]` variants from `options.go`.  Cancel functions are
modelled as opaque tokens (`Nat`); invoking one appends its token to
the `canceled` log. -/
inductive Update (T : Type) where
  | cancelerFor (page : Nat) (cancelFn : Nat)
  | withdrawCanceler (page : Nat)
  | errorSaver (req : PageRequest) (err : GoError)
  | itemHandler (idx : Nat) (page : List T)
  | pageDone
  | totalItems (v : Int)
  | totalPages (v : Int)
  | perPage (v : Int)
  | bundle (us : List (Update T))
  | pageRequest (idx : Nat) (req : Nat)

mutual

/-- `update.applyUpdate` from `options.go`, one case per variant.
`itemHandler` handles items in a spawned goroutine (`wg.Add(1)` paired
with the goroutine's `wg.Done()`, hence no net `wg` change here); we
log the handler invocations it performs in `handled`.  `pageRequest`
launching `go depag.getPage(...)` is logged in `fetched` (the paired
`wg.Add(1)` is counted; the fetch task's final `pageDone` update will
decrement it). -/
def applyUpdate {T : Type} : Update T → DepagState T → DepagState T
  | .cancelerFor page cancelFn, s => { s with cancelers := mapSet s.cancelers page cancelFn }
  | .withdrawCanceler page, s => { s with cancelers := mapDelete s.cancelers page }
  | .errorSaver req err, s =>
      if err.is .canceled || err.is .deadlineExceeded then s
      else { s with errors := s.errors ++ [⟨req, err⟩] }
  | .itemHandler idx page, s =>
      let s1 :=
        if (page.length : Int) < s.perPage then
          { s with
            totalPages :=
              if s.totalPages = 0 ∨ s.totalPages > (idx : Int) + 1 then (idx : Int) + 1
              else s.totalPages,
            totalItems :=
              if s.totalItems = 0 ∨ s.totalItems > s.perPage * (idx : Int) + page.length
              then s.perPage * (idx : Int) + page.length
              else s.totalItems,
            canceled := s.canceled ++ (s.cancelers.filter (fun e => idx < e.1)).map (fun e => e.2) }
        else s
      { s1 with
        handled := s1.handled ++ page.enum.map (fun ix => (s1.perPage * (idx : Int) + ix.1, ix.2)) }
  | .pageDone, s => { s with wg := s.wg - 1 }
  | .totalItems v, s => if v > 0 then { s with totalItems := v } else s
  | .totalPages v, s => if v > 0 then { s with totalPages := v } else s
  | .perPage v, s => if v > 0 then { s with perPage := v } else s
  | .bundle us, s => applyBundle us s
  | .pageRequest idx req, s =>
      if 0 < s.totalPages ∧ (idx : Int) ≥ s.totalPages then s
      else
        let r := s.pages.CheckAndSet idx
        if r.1 then { s with pages := r.2 }
        else { s with pages := r.2, wg := s.wg + 1, fetched := s.fetched ++ [⟨idx, req⟩] }

/-- `bundle.applyUpdate`: apply each bundled update in order. -/
def applyBundle {T : Type} : List (Update T) → DepagState T → DepagState T
  | [], s => s
  | u :: us, s => applyBundle us (applyUpdate u s)

end

/-- The daemon loop from `depaginator.go`: consume the received updates
in order, applying each one to the state.  (The optional updater hook
called after each update does not modify the state.) -/
def daemonRun {T : Type} (us : List (Update T)) (s : DepagState T) : DepagState T :=
  applyBundle us s

/-- The state constructed by `Depaginate` before the first page request:
the metadata hints from the options, empty errors, no cancelers, an
empty page bitmap (fresh logs). -/
def initState (T : Type) (totalItems totalPages perPage : Int) : DepagState T :=
  { errors := [], totalItems := totalItems, totalPages := totalPages, perPage := perPage,
    cancelers := [], canceled := [], pages := ⟨[]⟩, fetched := [], handled := [], wg := 0 }

section ApplyUpdateEquations

variable {T : Type}

@[simp] lemma applyUpdate_cancelerFor (page cancelFn : Nat) (s : DepagState T) :
    applyUpdate (Update.cancelerFor page cancelFn) s
      = { s with cancelers := mapSet s.cancelers page cancelFn } := rfl

@[simp] lemma applyUpdate_withdrawCanceler (page : Nat) (s : DepagState T) :
    applyUpdate (Update.withdrawCanceler page) s
      = { s with cancelers := mapDelete s.cancelers page } := rfl

lemma applyUpdate_errorSaver (req : PageRequest) (err : GoError) (s : DepagState T) :
    applyUpdate (Update.errorSaver req err) s
      = if err.is .canceled || err.is .deadlineExceeded then s
        else { s with errors := s.errors ++ [⟨req, err⟩] } := rfl

lemma applyUpdate_itemHandler (idx : Nat) (page : List T) (s : DepagState T) :
    applyUpdate (Update.itemHandler idx page) s
      = (let s1 :=
          if (page.length : Int) < s.perPage then
            { s with
              totalPages :=
                if s.totalPages = 0 ∨ s.totalPages > (idx : Int) + 1 then (idx : Int) + 1
                else s.totalPages,
              totalItems :=
                if s.totalItems = 0 ∨ s.totalItems > s.perPage * (idx : Int) + page.length
                then s.perPage * (idx : Int) + page.length
                else s.totalItems,
              canceled := s.canceled ++ (s.cancelers.filter (fun e => idx < e.1)).map (fun e => e.2) }
          else s
        { s1 with
          handled := s1.handled
            ++ page.enum.map (fun ix => (s1.perPage * (idx : Int) + ix.1, ix.2)) }) := rfl

@[simp] lemma applyUpdate_pageDone (s : DepagState T) :
    applyUpdate Update.pageDone s = { s with wg := s.wg - 1 } := rfl

lemma applyUpdate_totalItems (v : Int) (s : DepagState T) :
    applyUpdate (Update.totalItems v) s
      = if v > 0 then { s with totalItems := v } else s := rfl

lemma applyUpdate_totalPages (v : Int) (s : DepagState T) :
    applyUpdate (Update.totalPages v) s
      = if v > 0 then { s with totalPages := v } else s := rfl

lemma applyUpdate_perPage (v : Int) (s : DepagState T) :
    applyUpdate (Update.perPage v) s
      = if v > 0 then { s with perPage := v } else s := rfl

@[simp] lemma applyUpdate_bundle (us : List (Update T)) (s : DepagState T) :
    applyUpdate (Update.bundle us) s = applyBundle us s := rfl

lemma applyUpdate_pageRequest (idx req : Nat) (s : DepagState T) :
    applyUpdate (Update.pageRequest idx req) s
      = if 0 < s.totalPages ∧ (idx : Int) ≥ s.totalPages then s
        else if (s.pages.CheckAndSet idx).1 then { s with pages := (s.pages.CheckAndSet idx).2 }
        else { s with pages := (s.pages.CheckAndSet idx).2, wg := s.wg + 1,
                      fetched := s.fetched ++ [⟨idx, req⟩] } := rfl

@[simp] lemma applyBundle_nil (s : DepagState T) : applyBundle ([] : List (Update T)) s = s := rfl

@[simp] lemma applyBundle_cons (u : Update T) (us : List (Update T)) (s : DepagState T) :
    applyBundle (u :: us) s = applyBundle us (applyUpdate u s) := rfl

end ApplyUpdateEquations

/-- `Depaginator.getPage` from `depaginator.go`, as the sequence of
updates the fetch task submits to the daemon, in submission order.
`cancelFn` is the token for the task's `context.CancelFunc`; `result`
is what `PageGetter.GetPage` returned.  The `defer dp.update(pageDone)`
at the top of the function makes `pageDone` the last update submitted
on every branch. -/
def getPage {T : Type} (req : PageRequest) (cancelFn : Nat)
    (result : Except GoError (List T)) : List (Update T) :=
  [Update.cancelerFor req.PageIndex cancelFn, Update.withdrawCanceler req.PageIndex]
  ++ (match result with
      | .error err => [Update.errorSaver req err]
      | .ok page => [Update.itemHandler req.PageIndex page])
  ++ [Update.pageDone]

/-- The dynamic argument types accepted by `Depaginator.Update`:
`TotalItems`, `TotalPages`, `PerPage`, or anything else. -/
inductive UpdateArg where
  | TotalItems (v : Int)
  | TotalPages (v : Int)
  | PerPage (v : Int)
  | otherArg
  deriving Repr, DecidableEq

/-- The update objects `Depaginator.Update` builds from its arguments
(the `switch` in its loop): one per recognized argument type, skipping
every other argument. -/
def argsToUpdates (T : Type) (args : List UpdateArg) : List (Update T) :=
  args.filterMap fun a =>
    match a with
    | .TotalItems v => some (Update.totalItems v)
    | .TotalPages v => some (Update.totalPages v)
    | .PerPage v => some (Update.perPage v)
    | .otherArg => none

/-- `Depaginator.Update` from `depaginator.go`: collect the recognized
argument types into a `bundle`, ignoring all others; submit the bundle
only when it is non-empty.  Returns the updates submitted. -/
def DepaginatorUpdate (T : Type) (args : List UpdateArg) : List (Update T) :=
  if (argsToUpdates T args).length > 0 then [Update.bundle (argsToUpdates T args)] else []

/-- The error value returned by `Depaginator.Wait`:
`errors.Join(dp.errors...)`, which is `nil` exactly when the collected
error slice is empty (every recorded entry is a non-nil `PageError`). -/
def WaitResult {T : Type} (s : DepagState T) : Option (List PageError) :=
  if s.errors.isEmpty then none else some s.errors

section CheckAndSetIdempotent

lemma lor_two_pow_of_testBit {x b : Nat} (h : x.testBit b = true) : x ||| 2 ^ b = x := by
  apply Nat.eq_of_testBit_eq
  intro i
  rw [Nat.testBit_lor, Nat.testBit_two_pow]
  by_cases hbi : b = i
  · subst hbi
    simp [h]
  · simp [hbi]

lemma set_getD_self (l : List Nat) (i : Nat) (h : i < l.length) :
    l.set i (l.getD i 0) = l := by
  induction l generalizing i with
  | nil => simp at h
  | cons a l ih =>
    cases i with
    | zero => simp
    | succ i =>
      simp only [List.length_cons] at h
      show a :: l.set i ((a :: l).getD (i + 1) 0) = a :: l
      rw [List.getD_cons_succ, ih i (by omega)]

lemma marked_lt_length {pm : PageMap} {p : Nat} (h : pm.marked p = true) :
    p / uintSize < pm.bits.length := by
  by_contra hge
  rw [marked_iff_testBit, getD_eq_zero_of_le _ _ (by omega), Nat.zero_testBit] at h
  exact Bool.false_ne_true h

/-- Setting a bit that is already set does not change the bitmap at all
(no growth is needed and the word is unchanged). -/
lemma CheckAndSet_snd_of_marked {pm : PageMap} {p : Nat} (h : pm.marked p = true) :
    (pm.CheckAndSet p).2 = pm := by
  have hlt := marked_lt_length h
  have htb : (pm.bits.getD (p / uintSize) 0).testBit (p % uintSize) = true := by
    rw [← marked_iff_testBit]
    exact h
  unfold PageMap.CheckAndSet
  rw [dif_neg (Nat.not_le_of_lt hlt)]
  show PageMap.mk
      (pm.bits.set (p / uintSize) (pm.bits.getD (p / uintSize) 0 ||| 1 <<< (p % uintSize))) = pm
  rw [shiftLeft_one_eq, lor_two_pow_of_testBit htb, set_getD_self _ _ hlt]

end CheckAndSetIdempotent

/-- C8: `pageMap.CheckAndSet(p)` returns true iff bit `p` was set before
the call; afterwards the set of marked indices is the prior set united
with `{p}` (growth preserves every previously set bit and changes no
other bit); consequently a second `CheckAndSet(p)` returns true. -/
theorem pageMap_CheckAndSet_spec (pm : PageMap) (p q : Nat) :
    (pm.CheckAndSet p).1 = pm.marked p
    ∧ ((pm.CheckAndSet p).2).marked q = (decide (q = p) || pm.marked q)
    ∧ (((pm.CheckAndSet p).2).CheckAndSet p).1 = true := by
  refine ⟨CheckAndSet_fst pm p, CheckAndSet_marked pm p q, ?_⟩
  rw [CheckAndSet_fst, CheckAndSet_marked]
  simp

/-- C2: a `pageRequest` update is ignored outright when the page count
is known and the index is beyond it (no state change at all, the bitmap
in particular is not marked); ignored when the bitmap already holds the
index (again no state change, since re-setting a set bit is a no-op);
otherwise it marks the bitmap, increments the outstanding counter and
launches the fetch task.  Re-requesting the same index never launches
a second fetch. -/
theorem pageRequest_applyUpdate_spec (s : DepagState Nat) (idx req req2 : Nat) :
    (applyUpdate (Update.pageRequest idx req) s
      = if 0 < s.totalPages ∧ (idx : Int) ≥ s.totalPages then s
        else if s.pages.marked idx then s
        else { s with pages := (s.pages.CheckAndSet idx).2, wg := s.wg + 1,
                      fetched := s.fetched ++ [⟨idx, req⟩] })
    ∧ (applyUpdate (Update.pageRequest idx req2)
        (applyUpdate (Update.pageRequest idx req) s)).fetched
      = (applyUpdate (Update.pageRequest idx req) s).fetched := by
  have hmain : ∀ r : Nat, applyUpdate (Update.pageRequest idx r) s
      = if 0 < s.totalPages ∧ (idx : Int) ≥ s.totalPages then s
        else if s.pages.marked idx then s
        else { s with pages := (s.pages.CheckAndSet idx).2, wg := s.wg + 1,
                      fetched := s.fetched ++ [⟨idx, r⟩] } := by
    intro r
    rw [applyUpdate_pageRequest]
    by_cases hbar : 0 < s.totalPages ∧ (idx : Int) ≥ s.totalPages
    · rw [if_pos hbar, if_pos hbar]
    · rw [if_neg hbar, if_neg hbar, CheckAndSet_fst]
      by_cases hm : s.pages.marked idx
      · rw [if_pos hm, if_pos hm, CheckAndSet_snd_of_marked hm]
      · rw [if_neg hm, if_neg hm]
  refine ⟨hmain req, ?_⟩
  rw [hmain req]
  by_cases hbar : 0 < s.totalPages ∧ (idx : Int) ≥ s.totalPages
  · rw [if_pos hbar, hmain req2, if_pos hbar]
  · rw [if_neg hbar]
    by_cases hm : s.pages.marked idx
    · rw [if_pos hm, hmain req2, if_neg hbar, if_pos hm]
    · rw [if_neg hm, applyUpdate_pageRequest]
      have hbar' : ¬(0 < s.totalPages ∧ (idx : Int) ≥ s.totalPages) := hbar
      rw [if_neg hbar', CheckAndSet_fst]
      have hm' : (PageMap.marked (s.pages.CheckAndSet idx).2 idx) = true := by
        rw [CheckAndSet_marked]
        simp
      rw [if_pos hm']

section FetchDedup

variable {T : Type}

/-- How many fetch tasks have been launched for page index `p`. -/
def fetchCount (s : DepagState T) (p : Nat) : Nat :=
  (s.fetched.filter (fun r => r.PageIndex == p)).length

/-- The dedup invariant: no page has been fetched twice, and a page
whose bit is not yet set has never been fetched. -/
def FetchInv (s : DepagState T) : Prop :=
  ∀ p : Nat, fetchCount s p ≤ 1 ∧ (s.pages.marked p = false → fetchCount s p = 0)

lemma FetchInv_of_eq {s s' : DepagState T} (hf : s'.fetched = s.fetched)
    (hp : s'.pages = s.pages) (h : FetchInv s) : FetchInv s' := by
  intro p
  unfold fetchCount
  rw [hf, hp]
  exact h p

mutual

theorem fetchInv_applyUpdate : ∀ (u : Update T) (s : DepagState T),
    FetchInv s → FetchInv (applyUpdate u s)
  | .cancelerFor _ _, _, h => FetchInv_of_eq rfl rfl h
  | .withdrawCanceler _, _, h => FetchInv_of_eq rfl rfl h
  | .errorSaver req err, s, h => by
      rw [applyUpdate_errorSaver]
      split
      · exact h
      · exact FetchInv_of_eq rfl rfl h
  | .itemHandler idx page, s, h => by
      refine FetchInv_of_eq ?_ ?_ h <;>
        · rw [applyUpdate_itemHandler]
          simp only
          split <;> rfl
  | .pageDone, _, h => FetchInv_of_eq rfl rfl h
  | .totalItems v, s, h => by
      rw [applyUpdate_totalItems]
      split
      · exact FetchInv_of_eq rfl rfl h
      · exact h
  | .totalPages v, s, h => by
      rw [applyUpdate_totalPages]
      split
      · exact FetchInv_of_eq rfl rfl h
      · exact h
  | .perPage v, s, h => by
      rw [applyUpdate_perPage]
      split
      · exact FetchInv_of_eq rfl rfl h
      · exact h
  | .bundle us, s, h => fetchInv_applyBundle us s h
  | .pageRequest idx req, s, h => by
      rw [applyUpdate_pageRequest]
      split
      · exact h
      · rw [CheckAndSet_fst]
        by_cases hm : s.pages.marked idx
        · rw [if_pos hm]
          intro p
          unfold fetchCount
          simp only
          refine ⟨(h p).1, fun hmp => ?_⟩
          rw [CheckAndSet_marked] at hmp
          rcases Bool.or_eq_false_iff.mp hmp with ⟨-, hmp2⟩
          exact (h p).2 hmp2
        · rw [if_neg hm]
          intro p
          unfold fetchCount
          simp only [List.filter_append, List.length_append]
          by_cases hpq : p = idx
          · subst hpq
            have h0 : fetchCount s p = 0 := (h p).2 (by simpa using hm)
            unfold fetchCount at h0
            constructor
            · simp [h0]
            · intro hmp
              rw [CheckAndSet_marked] at hmp
              simp at hmp
          · have hne : ((PageRequest.mk idx req).PageIndex == p) = false := by
              simp only [beq_eq_false_iff_ne, ne_eq]
              omega
            constructor
            · simp only [List.filter_cons, hne, List.filter_nil, List.length_nil,
                Nat.add_zero, cond_false]
              exact (h p).1
            · intro hmp
              rw [CheckAndSet_marked] at hmp
              rcases Bool.or_eq_false_iff.mp hmp with ⟨-, hmp2⟩
              have := (h p).2 hmp2
              unfold fetchCount at this
              simp only [List.filter_cons, hne, List.filter_nil, List.length_nil,
                Nat.add_zero, cond_false]
              exact this

theorem fetchInv_applyBundle : ∀ (us : List (Update T)) (s : DepagState T),
    FetchInv s → FetchInv (applyBundle us s)
  | [], _, h => h
  | u :: us, s, h => fetchInv_applyBundle us (applyUpdate u s) (fetchInv_applyUpdate u s h)

end

lemma fetchInv_initState (ti tp pp : Int) : FetchInv (initState T ti tp pp) := by
  intro p
  constructor <;> simp [fetchCount, initState]

end FetchDedup

/-- C1: over any sequence of updates applied by the daemon of one
`Depaginator` instance (starting from the fresh state, after the initial
page-0 request placed by `Depaginate`), at most one fetch task is ever
launched for any page index `p`, no matter how many `pageRequest`
updates for `p` occur. -/
theorem daemon_fetch_dedup (ti tp pp : Int) (r0 : Nat) (us : List (Update Nat)) (p : Nat) :
    fetchCount (daemonRun us
      (applyUpdate (Update.pageRequest 0 r0) (initState Nat ti tp pp))) p ≤ 1 :=
  (fetchInv_applyBundle us _
    (fetchInv_applyUpdate _ _ (fetchInv_initState ti tp pp)) p).1

/-- C3 counterexample: with `perPage = 3` and `totalPages = 2` known, a
*full* page (3 items) at index `1 = totalPages - 1` does NOT trigger the
cancellation protocol: the canceler registered for page 5 is not
invoked, no boundary update happens, and the canceler map is untouched.
The code only tests `len(page) < perPage`; it has no
`idx == totalPages - 1` test. -/
theorem itemHandler_full_last_page_no_cancel :
    (applyUpdate (Update.itemHandler 1 [10, 20, 30])
      { errors := [], totalItems := 0, totalPages := 2, perPage := 3,
        cancelers := [(5, 7)], canceled := [], pages := ⟨[]⟩, fetched := [],
        handled := [], wg := 0 : DepagState Nat }).canceled = []
    ∧ (applyUpdate (Update.itemHandler 1 [10, 20, 30])
      { errors := [], totalItems := 0, totalPages := 2, perPage := 3,
        cancelers := [(5, 7)], canceled := [], pages := ⟨[]⟩, fetched := [],
        handled := [], wg := 0 : DepagState Nat }).cancelers = [(5, 7)]
    ∧ (applyUpdate (Update.itemHandler 1 [10, 20, 30])
      { errors := [], totalItems := 0, totalPages := 2, perPage := 3,
        cancelers := [(5, 7)], canceled := [], pages := ⟨[]⟩, fetched := [],
        handled := [], wg := 0 : DepagState Nat }).totalItems = 0
    ∧ ¬((applyUpdate (Update.itemHandler 1 [10, 20, 30])
      { errors := [], totalItems := 0, totalPages := 2, perPage := 3,
        cancelers := [(5, 7)], canceled := [], pages := ⟨[]⟩, fetched := [],
        handled := [], wg := 0 : DepagState Nat }).canceled = [7]) := by
  refine ⟨rfl, rfl, rfl, by decide⟩

/-- C3 amended: a delivered page is treated as the last page (boundary
update and invocation of the cancelers for higher pages) exactly when
the number of items is smaller than the currently known per-page size;
the page index being `totalPages - 1` plays no role. -/
theorem itemHandler_last_page_condition (s : DepagState Nat) (idx : Nat) (page : List Nat) :
    ((applyUpdate (Update.itemHandler idx page) s).canceled
      = if (page.length : Int) < s.perPage
        then s.canceled ++ (s.cancelers.filter (fun e => idx < e.1)).map (fun e => e.2)
        else s.canceled)
    ∧ ((applyUpdate (Update.itemHandler idx page) s).totalPages
      = if (page.length : Int) < s.perPage
        then (if s.totalPages = 0 ∨ s.totalPages > (idx : Int) + 1 then (idx : Int) + 1
              else s.totalPages)
        else s.totalPages)
    ∧ ((applyUpdate (Update.itemHandler idx page) s).totalItems
      = if (page.length : Int) < s.perPage
        then (if s.totalItems = 0 ∨ s.totalItems > s.perPage * (idx : Int) + page.length
              then s.perPage * (idx : Int) + page.length
              else s.totalItems)
        else s.totalItems) := by
  rw [applyUpdate_itemHandler]
  simp only
  refine ⟨?_, ?_, ?_⟩ <;> split <;> rfl

/-- C4: when a short page at index `idx` with `n` items identifies the
last page, `totalPages` becomes `idx + 1` unless a smaller positive
value was already known (then it is kept), and `totalItems` becomes
`perPage * idx + n` unless a smaller positive value was already known
(then it is kept). -/
theorem itemHandler_boundary_update (s : DepagState Nat) (idx : Nat) (page : List Nat)
    (hshort : (page.length : Int) < s.perPage)
    (hp : 0 ≤ s.totalPages) (hi : 0 ≤ s.totalItems) :
    ((applyUpdate (Update.itemHandler idx page) s).totalPages
      = if 0 < s.totalPages ∧ s.totalPages < (idx : Int) + 1 then s.totalPages
        else (idx : Int) + 1)
    ∧ ((applyUpdate (Update.itemHandler idx page) s).totalItems
      = if 0 < s.totalItems ∧ s.totalItems < s.perPage * (idx : Int) + (page.length : Int)
        then s.totalItems
        else s.perPage * (idx : Int) + (page.length : Int)) := by
  rw [applyUpdate_itemHandler]
  simp only [if_pos hshort]
  constructor <;> · split_ifs <;> first | rfl | omega

/-- C4 witness: `perPage = 3`, known `totalPages = 9 > 2 + 1`,
`totalItems = 5 < 3 * 2 + 2 = 8`: a short page (2 items) at index 2
sets `totalPages := 3` and keeps the smaller `totalItems = 5`. -/
theorem itemHandler_boundary_update_witness :
    ((applyUpdate (Update.itemHandler 2 [40, 50])
      { errors := [], totalItems := 5, totalPages := 9, perPage := 3,
        cancelers := [], canceled := [], pages := ⟨[]⟩, fetched := [],
        handled := [], wg := 0 : DepagState Nat }).totalPages = 3)
    ∧ ((applyUpdate (Update.itemHandler 2 [40, 50])
      { errors := [], totalItems := 5, totalPages := 9, perPage := 3,
        cancelers := [], canceled := [], pages := ⟨[]⟩, fetched := [],
        handled := [], wg := 0 : DepagState Nat }).totalItems = 5) := by
  have h := itemHandler_boundary_update
    { errors := [], totalItems := 5, totalPages := 9, perPage := 3,
      cancelers := [], canceled := [], pages := ⟨[]⟩, fetched := [],
      handled := [], wg := 0 : DepagState Nat } 2 [40, 50]
    (by decide) (by decide) (by decide)
  rw [h.1, h.2]
  decide

/-- C5 counterexample: a short page at index 1 invokes the canceler
registered for page 5 (token 7 is called) but does NOT remove its entry
from the canceler map: afterwards the map still contains the entry
`(5, 7)` with index `5 > 1`. -/
theorem cancelers_not_dropped_on_cancel :
    ((applyUpdate (Update.itemHandler 1 ([] : List Nat))
      { errors := [], totalItems := 0, totalPages := 0, perPage := 3,
        cancelers := [(5, 7), (1, 9)], canceled := [], pages := ⟨[]⟩, fetched := [],
        handled := [], wg := 0 : DepagState Nat }).canceled = [7])
    ∧ ((applyUpdate (Update.itemHandler 1 ([] : List Nat))
      { errors := [], totalItems := 0, totalPages := 0, perPage := 3,
        cancelers := [(5, 7), (1, 9)], canceled := [], pages := ⟨[]⟩, fetched := [],
        handled := [], wg := 0 : DepagState Nat }).cancelers = [(5, 7), (1, 9)])
    ∧ ¬(((applyUpdate (Update.itemHandler 1 ([] : List Nat))
      { errors := [], totalItems := 0, totalPages := 0, perPage := 3,
        cancelers := [(5, 7), (1, 9)], canceled := [], pages := ⟨[]⟩, fetched := [],
        handled := [], wg := 0 : DepagState Nat }).cancelers.all (fun e => e.1 ≤ 1)) = true) := by
  refine ⟨rfl, rfl, by decide⟩

/-- C5 amended: when the cancellation protocol runs for last page `idx`,
every canceler registered for an index strictly greater than `idx` is
invoked, but the canceler map itself is left unchanged; entries are
removed only later, by the `withdrawCanceler` update each fetch task
submits when it finishes. -/
theorem cancel_protocol_invokes_not_removes (s : DepagState Nat) (idx : Nat)
    (page : List Nat) (p : Nat) (hshort : (page.length : Int) < s.perPage) :
    ((applyUpdate (Update.itemHandler idx page) s).canceled
      = s.canceled ++ (s.cancelers.filter (fun e => idx < e.1)).map (fun e => e.2))
    ∧ ((applyUpdate (Update.itemHandler idx page) s).cancelers = s.cancelers)
    ∧ (applyUpdate (Update.withdrawCanceler p) s
        = { s with cancelers := mapDelete s.cancelers p }) := by
  rw [applyUpdate_itemHandler]
  simp only [if_pos hshort]
  exact ⟨trivial, trivial, rfl⟩

/-- C5 amended witness: short page at index 1 with cancelers for pages 5
and 1: token 7 (page 5) is invoked, the map is unchanged, and a
`withdrawCanceler 5` update would delete the entry. -/
theorem cancel_protocol_invokes_not_removes_witness :
    ((applyUpdate (Update.itemHandler 1 ([] : List Nat))
      { errors := [], totalItems := 0, totalPages := 0, perPage := 3,
        cancelers := [(5, 7), (1, 9)], canceled := [], pages := ⟨[]⟩, fetched := [],
        handled := [], wg := 0 : DepagState Nat }).canceled = [7]) := by
  have h := cancel_protocol_invokes_not_removes
    { errors := [], totalItems := 0, totalPages := 0, perPage := 3,
      cancelers := [(5, 7), (1, 9)], canceled := [], pages := ⟨[]⟩, fetched := [],
      handled := [], wg := 0 : DepagState Nat } 1 [] 5 (by decide)
  rw [h.1]
  decide

section ErrorRecording

/-- `errors.Is(err, context.Canceled) || errors.Is(err, context.DeadlineExceeded)`:
the condition under which `errorSaver.applyUpdate` skips recording. -/
def isContextErr (err : GoError) : Bool :=
  err.is .canceled || err.is .deadlineExceeded

mutual

/-- The `PageError` entries an update contributes to `depag.errors`. -/
def savedErrors {T : Type} : Update T → List PageError
  | .errorSaver req err => if isContextErr err then [] else [⟨req, err⟩]
  | .bundle us => savedErrorsList us
  | _ => []

/-- The `PageError` entries a list of updates contributes, in order. -/
def savedErrorsList {T : Type} : List (Update T) → List PageError
  | [] => []
  | u :: us => savedErrors u ++ savedErrorsList us

end

mutual

theorem errors_applyUpdate {T : Type} : ∀ (u : Update T) (s : DepagState T),
    (applyUpdate u s).errors = s.errors ++ savedErrors u
  | .cancelerFor _ _, s => by simp [savedErrors]
  | .withdrawCanceler _, s => by simp [savedErrors]
  | .errorSaver req err, s => by
      rw [applyUpdate_errorSaver]
      unfold savedErrors isContextErr
      split
      · next hc => simp [hc]
      · next hc => simp [hc]
  | .itemHandler idx page, s => by
      rw [applyUpdate_itemHandler]
      unfold savedErrors
      simp only
      split <;> simp
  | .pageDone, s => by simp [savedErrors]
  | .totalItems v, s => by
      rw [applyUpdate_totalItems]
      unfold savedErrors
      split <;> simp
  | .totalPages v, s => by
      rw [applyUpdate_totalPages]
      unfold savedErrors
      split <;> simp
  | .perPage v, s => by
      rw [applyUpdate_perPage]
      unfold savedErrors
      split <;> simp
  | .bundle us, s => by
      rw [applyUpdate_bundle]
      unfold savedErrors
      exact errors_applyBundle us s
  | .pageRequest idx req, s => by
      rw [applyUpdate_pageRequest]
      unfold savedErrors
      split
      · simp
      · split <;> simp

theorem errors_applyBundle {T : Type} : ∀ (us : List (Update T)) (s : DepagState T),
    (applyBundle us s).errors = s.errors ++ savedErrorsList us
  | [], s => by simp [savedErrorsList]
  | u :: us, s => by
      rw [applyBundle_cons, errors_applyBundle us _, errors_applyUpdate u s]
      simp [savedErrorsList]

end

end ErrorRecording

/-- C6: a page-getter error that is (or wraps) `context.Canceled` or
`context.DeadlineExceeded` is never recorded; any other error is
recorded as a `PageError` bundling the originating request; and `Wait`
returns a non-nil joined error iff at least one non-cancellation
failure was recorded during the run. -/
theorem errorSaver_wait_spec (s : DepagState Nat) (req : PageRequest) (err : GoError)
    (ti tp pp : Int) (r0 : Nat) (us : List (Update Nat)) :
    (isContextErr err = true → applyUpdate (Update.errorSaver req err) s = s)
    ∧ (isContextErr err = false →
        (applyUpdate (Update.errorSaver req err) s).errors = s.errors ++ [⟨req, err⟩])
    ∧ (WaitResult (daemonRun us
        (applyUpdate (Update.pageRequest 0 r0) (initState Nat ti tp pp))) = none
      ↔ savedErrorsList us = []) := by
  refine ⟨?_, ?_, ?_⟩
  · intro hc
    rw [applyUpdate_errorSaver, if_pos (by unfold isContextErr at hc; exact hc)]
  · intro hc
    rw [applyUpdate_errorSaver, if_neg (by unfold isContextErr at hc; simp [hc])]
  · have herr : (daemonRun us
        (applyUpdate (Update.pageRequest 0 r0) (initState Nat ti tp pp))).errors
        = savedErrorsList us := by
      unfold daemonRun
      rw [errors_applyBundle, errors_applyUpdate]
      simp [savedErrors, initState]
    unfold WaitResult
    rw [herr]
    constructor
    · intro h
      by_cases he : savedErrorsList us = []
      · exact he
      · rw [if_neg (by simpa using he)] at h
        exact absurd h (by simp)
    · intro h
      rw [if_pos (by simpa using h)]

/-- C6 witness: an error wrapping `context.Canceled` is dropped; a
plain error is recorded with its request; an update list with no
error-saver updates yields a `nil` result from `Wait`. -/
theorem errorSaver_wait_spec_witness :
    (applyUpdate (Update.errorSaver ⟨2, 0⟩ (GoError.wrapped GoError.canceled))
      (initState Nat 0 0 0) = initState Nat 0 0 0)
    ∧ ((applyUpdate (Update.errorSaver ⟨2, 0⟩ (GoError.errorString "boom"))
      (initState Nat 0 0 0)).errors = [⟨⟨2, 0⟩, GoError.errorString "boom"⟩]) :=
  ⟨(errorSaver_wait_spec (initState Nat 0 0 0) ⟨2, 0⟩ (GoError.wrapped GoError.canceled)
      0 0 0 0 []).1 (by decide),
   (errorSaver_wait_spec (initState Nat 0 0 0) ⟨2, 0⟩ (GoError.errorString "boom")
      0 0 0 0 []).2.1 (by decide)⟩

/-- Recognizer for the `pageDone` update. -/
def isPageDone {T : Type} : Update T → Bool
  | .pageDone => true
  | _ => false

/-- C7: every execution of a fetch task (`getPage`) submits exactly one
`pageDone` update, it is the last update submitted, and on every branch
the sequence is: `cancelerFor`, `withdrawCanceler`, then `errorSaver`
(on error) or `itemHandler` (on success), then the single `pageDone`. -/
theorem getPage_update_sequence (T : Type) (req : PageRequest) (cancelFn : Nat)
    (result : Except GoError (List T)) :
    (getPage req cancelFn result
      = [Update.cancelerFor req.PageIndex cancelFn, Update.withdrawCanceler req.PageIndex]
        ++ (match result with
            | .error err => [Update.errorSaver req err]
            | .ok page => [Update.itemHandler req.PageIndex page])
        ++ [Update.pageDone])
    ∧ ((getPage req cancelFn result).filter isPageDone).length = 1
    ∧ (getPage req cancelFn result).getLast? = some Update.pageDone := by
  refine ⟨rfl, ?_, ?_⟩ <;> cases result <;> rfl

section ItemDelivery

lemma itemHandler_handled (T : Type) (s : DepagState T) (idx : Nat) (page : List T) :
    (applyUpdate (Update.itemHandler idx page) s).handled
      = s.handled ++ page.enum.map (fun ix => (s.perPage * (idx : Int) + ix.1, ix.2)) := by
  rw [applyUpdate_itemHandler]
  simp only
  split <;> rfl

end ItemDelivery

/-- C9: applying a deliver-items update for page `idx` carrying items
`x_0 .. x_{n-1}` invokes the item handler exactly once per item — the
handled log gains exactly `n` entries, earlier entries are untouched,
and the `i`-th new entry is the pair `(perPage * idx + i, x_i)` with
`perPage` the value known when the update is applied. -/
theorem itemHandler_delivery (s : DepagState Nat) (idx : Nat) (page : List Nat) :
    ((applyUpdate (Update.itemHandler idx page) s).handled.length
      = s.handled.length + page.length)
    ∧ (∀ j, j < s.handled.length →
        (applyUpdate (Update.itemHandler idx page) s).handled[j]? = s.handled[j]?)
    ∧ (∀ i, i < page.length →
        (applyUpdate (Update.itemHandler idx page) s).handled[s.handled.length + i]?
          = some (s.perPage * (idx : Int) + (i : Int), page.getD i 0)) := by
  rw [itemHandler_handled]
  refine ⟨by simp, ?_, ?_⟩
  · intro j hj
    rw [List.getElem?_append, if_pos hj]
  · intro i hi
    rw [List.getElem?_append_right (by omega)]
    simp only [Nat.add_sub_cancel_left, List.getElem?_map, List.getElem?_enum]
    rw [List.getElem?_eq_getElem hi]
    simp [List.getD, List.getElem?_eq_getElem hi]

/-- C9 witness: delivering page 2 = `[40, 50]` with `perPage = 3` and one
prior handled entry: the log keeps its old entry and gains
`(6, 40)` and `(7, 50)`. -/
theorem itemHandler_delivery_witness :
    ((applyUpdate (Update.itemHandler 2 [40, 50])
      { errors := [], totalItems := 0, totalPages := 0, perPage := 3,
        cancelers := [], canceled := [], pages := ⟨[]⟩, fetched := [],
        handled := [(0, 99)], wg := 0 : DepagState Nat }).handled.length = 3)
    ∧ ((applyUpdate (Update.itemHandler 2 [40, 50])
      { errors := [], totalItems := 0, totalPages := 0, perPage := 3,
        cancelers := [], canceled := [], pages := ⟨[]⟩, fetched := [],
        handled := [(0, 99)], wg := 0 : DepagState Nat }).handled[1]? = some (6, 40))
    ∧ ((applyUpdate (Update.itemHandler 2 [40, 50])
      { errors := [], totalItems := 0, totalPages := 0, perPage := 3,
        cancelers := [], canceled := [], pages := ⟨[]⟩, fetched := [],
        handled := [(0, 99)], wg := 0 : DepagState Nat }).handled[2]? = some (7, 50)) := by
  have h := itemHandler_delivery
    { errors := [], totalItems := 0, totalPages := 0, perPage := 3,
      cancelers := [], canceled := [], pages := ⟨[]⟩, fetched := [],
      handled := [(0, 99)], wg := 0 : DepagState Nat } 2 [40, 50]
  refine ⟨by rw [h.1]; decide, ?_, ?_⟩
  · have := h.2.2 0 (by decide)
    simpa using this
  · have := h.2.2 1 (by decide)
    simpa using this

section MetadataUpdates

/-- Recognizer for the argument types `Depaginator.Update` accepts. -/
def isMetaArg : UpdateArg → Bool
  | .otherArg => false
  | _ => true

lemma argsToUpdates_filter (T : Type) (args : List UpdateArg) :
    argsToUpdates T args = argsToUpdates T (args.filter isMetaArg) := by
  induction args with
  | nil => rfl
  | cons a args ih =>
    cases a <;> simp [argsToUpdates, List.filterMap_cons, isMetaArg, List.filter_cons] <;>
      simpa [argsToUpdates] using ih

lemma applyBundle_DepaginatorUpdate (T : Type) (args : List UpdateArg) (s : DepagState T) :
    applyBundle (DepaginatorUpdate T args) s = applyBundle (argsToUpdates T args) s := by
  unfold DepaginatorUpdate
  split
  · simp
  · next h =>
    have hz : (argsToUpdates T args).length = 0 := by omega
    rw [List.length_eq_zero.mp hz]

lemma argsToUpdates_pos (args : List UpdateArg) : ∀ s : DepagState Nat,
    (0 < s.totalItems → 0 < (applyBundle (argsToUpdates Nat args) s).totalItems)
    ∧ (0 < s.totalPages → 0 < (applyBundle (argsToUpdates Nat args) s).totalPages)
    ∧ (0 < s.perPage → 0 < (applyBundle (argsToUpdates Nat args) s).perPage) := by
  induction args with
  | nil => exact fun s => ⟨fun h => h, fun h => h, fun h => h⟩
  | cons a args ih =>
    intro s
    cases a with
    | TotalItems v =>
      simp only [argsToUpdates, List.filterMap_cons, applyBundle_cons]
      rw [show (applyUpdate (Update.totalItems v) s)
          = if v > 0 then { s with totalItems := v } else s from rfl]
      by_cases hv : v > 0
      · rw [if_pos hv]
        rcases ih { s with totalItems := v } with ⟨h1, h2, h3⟩
        exact ⟨fun _ => h1 hv, h2, h3⟩
      · rw [if_neg hv]
        exact ih s
    | TotalPages v =>
      simp only [argsToUpdates, List.filterMap_cons, applyBundle_cons]
      rw [show (applyUpdate (Update.totalPages v) s)
          = if v > 0 then { s with totalPages := v } else s from rfl]
      by_cases hv : v > 0
      · rw [if_pos hv]
        rcases ih { s with totalPages := v } with ⟨h1, h2, h3⟩
        exact ⟨h1, fun _ => h2 hv, h3⟩
      · rw [if_neg hv]
        exact ih s
    | PerPage v =>
      simp only [argsToUpdates, List.filterMap_cons, applyBundle_cons]
      rw [show (applyUpdate (Update.perPage v) s)
          = if v > 0 then { s with perPage := v } else s from rfl]
      by_cases hv : v > 0
      · rw [if_pos hv]
        rcases ih { s with perPage := v } with ⟨h1, h2, h3⟩
        exact ⟨h1, h2, fun _ => h3 hv⟩
      · rw [if_neg hv]
        exact ih s
    | otherArg =>
      simp only [argsToUpdates, List.filterMap_cons]
      exact ih s

end MetadataUpdates

/-- C10: `Depaginator.Update` ignores argument types other than
`TotalItems`, `TotalPages` and `PerPage`; applying a recognized update
with value `v` sets the corresponding field to `v` whenever `v > 0`
(overwriting any previous value, larger or smaller) and leaves it
unchanged whenever `v ≤ 0`; hence a field that is positive can never be
reset to zero or made negative by `Depaginator.Update`. -/
theorem depaginator_update_spec (s : DepagState Nat) (args : List UpdateArg) (v : Int) :
    (DepaginatorUpdate Nat args = DepaginatorUpdate Nat (args.filter isMetaArg))
    ∧ (applyUpdate (Update.totalItems v) s = if 0 < v then { s with totalItems := v } else s)
    ∧ (applyUpdate (Update.totalPages v) s = if 0 < v then { s with totalPages := v } else s)
    ∧ (applyUpdate (Update.perPage v) s = if 0 < v then { s with perPage := v } else s)
    ∧ (0 < s.totalItems → 0 < (applyBundle (DepaginatorUpdate Nat args) s).totalItems)
    ∧ (0 < s.totalPages → 0 < (applyBundle (DepaginatorUpdate Nat args) s).totalPages)
    ∧ (0 < s.perPage → 0 < (applyBundle (DepaginatorUpdate Nat args) s).perPage) := by
  refine ⟨?_, rfl, rfl, rfl, ?_, ?_, ?_⟩
  · unfold DepaginatorUpdate
    rw [← argsToUpdates_filter]
  · rw [applyBundle_DepaginatorUpdate]
    exact (argsToUpdates_pos args s).1
  · rw [applyBundle_DepaginatorUpdate]
    exact (argsToUpdates_pos args s).2.1
  · rw [applyBundle_DepaginatorUpdate]
    exact (argsToUpdates_pos args s).2.2

/-- C10 witness: from positive metadata `(1, 2, 3)`, the argument list
`[TotalItems 7, otherArg, PerPage (-4)]` keeps every field positive
(`totalItems` becomes 7, `perPage` stays 3). -/
theorem depaginator_update_spec_witness :
    0 < (applyBundle (DepaginatorUpdate Nat [UpdateArg.TotalItems 7, UpdateArg.otherArg,
          UpdateArg.PerPage (-4)])
        { errors := [], totalItems := 1, totalPages := 2, perPage := 3,
          cancelers := [], canceled := [], pages := ⟨[]⟩, fetched := [],
          handled := [], wg := 0 : DepagState Nat }).totalItems
    ∧ 0 < (applyBundle (DepaginatorUpdate Nat [UpdateArg.TotalItems 7, UpdateArg.otherArg,
          UpdateArg.PerPage (-4)])
        { errors := [], totalItems := 1, totalPages := 2, perPage := 3,
          cancelers := [], canceled := [], pages := ⟨[]⟩, fetched := [],
          handled := [], wg := 0 : DepagState Nat }).perPage :=
  ⟨(depaginator_update_spec
      { errors := [], totalItems := 1, totalPages := 2, perPage := 3,
        cancelers := [], canceled := [], pages := ⟨[]⟩, fetched := [],
        handled := [], wg := 0 : DepagState Nat }
      [UpdateArg.TotalItems 7, UpdateArg.otherArg, UpdateArg.PerPage (-4)] 0).2.2.2.2.1
    (by decide),
   (depaginator_update_spec
      { errors := [], totalItems := 1, totalPages := 2, perPage := 3,
        cancelers := [], canceled := [], pages := ⟨[]⟩, fetched := [],
        handled := [], wg := 0 : DepagState Nat }
      [UpdateArg.TotalItems 7, UpdateArg.otherArg, UpdateArg.PerPage (-4)] 0).2.2.2.2.2.2
    (by decide)⟩

end Depag
